import Mathlib

/-!
Verification of the `ya-runtime-http-auth` HTTP reverse proxy (crates
`ya-http-proxy`, `ya-http-proxy-model`, `ya-http-proxy-client`).

The development shallowly embeds the data model and the operations of the
proxy core:

* the path-rewrite algorithm of `proxy/handler.rs`
  (`merge_path_and_query`, `extract_req`, `extract_from`);
* the per-instance service registry of `proxy.rs`
  (`ProxyState::add_service` / `remove_service`) and its invariants;
* the request-forwarding pipeline of `proxy/handler.rs` (`forward_req`);
* the statistics counters of `proxy.rs` (`ProxyStats`);
* the management-API error mapping of `api.rs` / `error.rs`;
* the client SDK response handling of `ya-http-proxy-client/src/web.rs`.

Rust `HashMap`s are embedded as association lists with the usual
first-occurrence lookup; all map states reachable by the embedded
operations have pairwise-distinct keys, so this is faithful.  Rust `str`
operations (`starts_with`, `strip_prefix`, `trim`, ...) are byte-wise on
UTF-8; on the `List Char` view of Lean strings they coincide with the
character-wise operations used below, because UTF-8 is self-synchronizing
(a valid encoded string is a byte prefix of another iff it is a character
prefix).
-/

namespace YaHttpProxy

/-! ## Association-list maps (embedding of `std::collections::HashMap`) -/

/-- Lookup of the first binding of key `k` (embeds `HashMap::get`). -/
def lookupA {α : Type} (k : String) : List (String × α) → Option α
  | [] => none
  | (k₂, v) :: t => if k₂ = k then some v else lookupA k t

/-- Removal of all bindings of key `k` (embeds `HashMap::remove`). -/
def removeA {α : Type} (k : String) (l : List (String × α)) : List (String × α) :=
  l.filter (fun p => p.1 != k)

/-- Key insertion replacing any previous binding (embeds `HashMap::insert`). -/
def insertA {α : Type} (k : String) (v : α) (l : List (String × α)) : List (String × α) :=
  (k, v) :: removeA k l

/-- The list of keys of an association list. -/
def keysA {α : Type} (l : List (String × α)) : List String :=
  l.map Prod.fst

/-- Key membership (embeds `HashMap::contains_key`). -/
def containsA {α : Type} (k : String) (l : List (String × α)) : Bool :=
  (lookupA k l).isSome

/-- In-place update of the value bound to `k` (embeds mutation through
`HashMap::get_mut`). -/
def updateA {α : Type} (k : String) (f : α → α) (l : List (String × α)) : List (String × α) :=
  l.map (fun p => if p.1 = k then (p.1, f p.2) else p)

/-! ## String operations (embedding of Rust `str` methods) -/

/-- Embeds `str::starts_with` (byte prefix = character prefix on UTF-8). -/
def strStartsWith (s p : String) : Bool :=
  p.data.isPrefixOf s.data

/-- Embeds `str::ends_with`. -/
def strEndsWith (s p : String) : Bool :=
  p.data.isSuffixOf s.data

/-- Embeds `str::trim` (leading and trailing whitespace removed). -/
def strTrim (s : String) : String :=
  ⟨((s.data.dropWhile Char.isWhitespace).reverse.dropWhile Char.isWhitespace).reverse⟩

/-- Embeds `str::strip_prefix(p).unwrap_or(s)`: the local closure
`strip_or_stay` of `merge_path_and_query` in `proxy/handler.rs`. -/
def stripOrStay (s p : String) : String :=
  if p.data.isPrefixOf s.data then ⟨s.data.drop p.data.length⟩ else s

/-! ## URIs

The `http::Uri` values handled by the proxy are embedded as their parts:
scheme, authority and the path-and-query component, the latter kept as the
raw string the `http` crate stores (`PathAndQuery::as_str`).  A URI written
without any path (e.g. `http://127.0.0.1`) carries `paq = none`. -/

/-- Embedding of `http::Uri` as its parts. -/
structure Uri where
  scheme : Option String
  authority : Option String
  paq : Option String
deriving DecidableEq, Repr

/-- Embeds `Uri::path`: the part of the path-and-query before `?`, where an
absent or empty path reads as `"/"` (behaviour of the `http` crate). -/
def pathOf (paq : Option String) : String :=
  match paq with
  | none => "/"
  | some s =>
    let p : String := ⟨s.data.takeWhile (fun c => c != '?')⟩
    if p = "" then "/" else p

/-- Embeds `Uri::query`: the part of the path-and-query after the first `?`. -/
def queryOf (paq : Option String) : Option String :=
  match paq with
  | none => none
  | some s =>
    if s.data.contains '?' then some ⟨(s.data.dropWhile (fun c => c != '?')).tail⟩ else none

/-- Embeds `http::Uri` equality (`PartialEq`), which compares scheme,
authority, `path()` and `query()`; in particular an empty or absent path
equals `"/"`. -/
def uriEq (a b : Uri) : Bool :=
  a.scheme == b.scheme && a.authority == b.authority &&
    pathOf a.paq == pathOf b.paq && queryOf a.paq == queryOf b.paq

/-! ## Path rewrite (`proxy/handler.rs`) -/

/-- Embeds `extract_req` of `proxy/handler.rs`: the request's path-and-query,
`"/"` when absent or empty. -/
def extract_req : Option String → String
  | none => "/"
  | some s => if s = "" then "/" else s

/-- Embeds `extract_from` of `proxy/handler.rs`: the `from` URI's
path-and-query; `None`, `""` and `"/"` all map to `"/"`, any other string
has a single trailing `/` stripped. -/
def extract_from : Option String → String
  | none => "/"
  | some s =>
    if s = "" ∨ s = "/" then "/"
    else if strEndsWith s "/" then ⟨s.data.dropLast⟩ else s

/-- The string computation inside `merge_path_and_query` of
`proxy/handler.rs`, producing the rewritten path-and-query from the
request's, the service `from`'s and the service `to`'s path-and-query
components.  `PathAndQuery::try_from` validation is not modelled: every
string produced here from valid path-and-query inputs is again valid. -/
def mergePaq (req_paq from_paq to_paq : Option String) : String :=
  let req_str := extract_req req_paq
  let from_str := extract_from from_paq
  let r := stripOrStay req_str from_str
  let is_root := r == "/"
  let rem := stripOrStay r "/"
  match to_paq with
  | some to_str =>
    if rem = "" then
      if is_root && !(strEndsWith to_str "/") then to_str ++ "/" else to_str
    else if strEndsWith to_str "/" then to_str ++ rem
    else if is_root then to_str ++ "/"
    else to_str ++ "/" ++ rem
  | none => rem

/-- Embeds `merge_path_and_query` of `proxy/handler.rs`: the request URI is
replaced by the `to` URI's scheme and authority carrying the merged
path-and-query. -/
def merge_path_and_query (req_uri proxy_from proxy_to : Uri) : Uri :=
  { scheme := proxy_to.scheme
    authority := proxy_to.authority
    paq := some (mergePaq req_uri.paq proxy_from.paq proxy_to.paq) }

/-! ## Service registry (`proxy.rs`)

`ProxyState` indexes services by endpoint and by name.  The state-level
operations of `proxy.rs` (`Proxy::add`, `ProxyState::add_service`, ...)
treat the `from` field of `CreateService` as a string (`trim`,
`starts_with('/')`, `format!("/{}", ..)`), so the registry embedding keeps
it as a string; the handler-level `forward_req` embedding below works on
the URI view instead, mirroring `proxy/handler.rs`. -/

/-- The fields of `model::CreateService` the registry operations consume
(`from` is a Lean keyword, hence `from_`). -/
structure CreateService where
  name : String
  from_ : String
deriving DecidableEq, Repr

/-- Embeds `ProxyUser` of `proxy.rs` (creation time not modelled). -/
structure ProxyUser where
  username : String
  credentials : String
deriving DecidableEq, Repr

/-- Embeds `ProxyService` of `proxy.rs`: the creating request, the set of
authorized credential tokens and the user map. -/
structure ProxyService where
  created_with : CreateService
  access : List String
  users : List (String × ProxyUser)
deriving DecidableEq, Repr

/-- Embeds `ProxyService::new`. -/
def ProxyService.new (create : CreateService) : ProxyService :=
  { created_with := create, access := [], users := [] }

/-- Embeds `error::ServiceError`. -/
inductive ServiceError where
  | alreadyExists (name endpoint : String)
  | notFound (name : String)
deriving DecidableEq, Repr

/-- Embeds `error::UserError`. -/
inductive UserError where
  | alreadyExists (name : String)
  | notFound (name : String)
deriving DecidableEq, Repr

/-- Embeds `ProxyState` of `proxy.rs`. -/
structure ProxyState where
  by_endpoint : List (String × ProxyService)
  by_name : List (String × String)
deriving DecidableEq, Repr

/-- The empty `ProxyState` (`Default` in `proxy.rs`). -/
def emptyState : ProxyState :=
  { by_endpoint := [], by_name := [] }

/-- The endpoint normalization performed at the top of
`ProxyState::add_service`: trim, then prepend `/` unless already present. -/
def normalizeEndpoint (s : String) : String :=
  let e := strTrim s
  if strStartsWith e "/" then e else "/" ++ e

/-- Embeds `ProxyState::add_service`: reject duplicate names and endpoints
that are prefix-comparable with an existing endpoint, otherwise insert into
both indices.  Returns the stored service together with the new state
(mirroring the `&mut ProxyService` the Rust function hands back). -/
def ProxyState.add_service (st : ProxyState) (create : CreateService) :
    Except ServiceError (ProxyService × ProxyState) :=
  let name := create.name
  let endpoint := normalizeEndpoint create.from_
  if containsA name st.by_name then
    .error (.alreadyExists name endpoint)
  else if (keysA st.by_endpoint).any
      (fun e => strStartsWith e endpoint || strStartsWith endpoint e) then
    .error (.alreadyExists name endpoint)
  else
    let service := ProxyService.new create
    .ok (service,
      { by_name := insertA name endpoint st.by_name
        by_endpoint := insertA endpoint service st.by_endpoint })

/-- Embeds `ProxyState::remove_service`. -/
def ProxyState.remove_service (st : ProxyState) (name : String) :
    Except ServiceError ProxyState :=
  match lookupA name st.by_name with
  | some endpoint =>
    .ok { by_name := removeA name st.by_name
          by_endpoint := removeA endpoint st.by_endpoint }
  | none => .error (.notFound name)

/-- Embeds `ProxyState::get_service`. -/
def ProxyState.get_service (st : ProxyState) (name : String) :
    Except ServiceError ProxyService :=
  match lookupA name st.by_name with
  | some e =>
    match lookupA e st.by_endpoint with
    | some svc => .ok svc
    | none => .error (.notFound name)
  | none => .error (.notFound name)

/-- A sequence element for `ProxyState`-level histories: the two mutating
registry operations. -/
inductive StateOp where
  | add (create : CreateService)
  | remove (name : String)
deriving DecidableEq, Repr

/-- One step of a registry history; an operation returning an error leaves
the state unchanged (the Rust functions return the error before mutating). -/
def applyStateOp (st : ProxyState) : StateOp → ProxyState
  | .add c =>
    match st.add_service c with
    | .ok (_, st₂) => st₂
    | .error _ => st
  | .remove n =>
    match st.remove_service n with
    | .ok st₂ => st₂
    | .error _ => st

/-- The registry state after running a history from the empty state. -/
def runStateOps (ops : List StateOp) : ProxyState :=
  ops.foldl applyStateOp emptyState

/-! ## Statistics (`proxy.rs`, `ProxyStats`) -/

/-- Embeds `ProxyStats` of `proxy.rs`. -/
structure ProxyStats where
  total : Nat
  endpoint : List (String × Nat)
  user : List (String × Nat)
  user_endpoint : List (String × List (String × Nat))
deriving DecidableEq, Repr

/-- The zeroed `ProxyStats` (`Default` in `proxy.rs`). -/
def emptyStats : ProxyStats :=
  { total := 0, endpoint := [], user := [], user_endpoint := [] }

/-- Embeds `ProxyStats::reset_endpoint`: unconditionally store 0. -/
def ProxyStats.reset_endpoint (s : ProxyStats) (endpoint : String) : ProxyStats :=
  { s with endpoint := insertA endpoint 0 s.endpoint }

/-- Embeds `ProxyStats::reset_user`: store 0 and an empty endpoint map. -/
def ProxyStats.reset_user (s : ProxyStats) (username : String) : ProxyStats :=
  { s with
    user := insertA username 0 s.user
    user_endpoint := insertA username [] s.user_endpoint }

/-- Increment-or-insert-1 on a counter map, embedding the
`get_mut`/`insert` pattern of `ProxyStats::inc`. -/
def bumpA (k : String) : List (String × Nat) → List (String × Nat)
  | [] => [(k, 1)]
  | (k₂, v) :: t => if k₂ = k then (k₂, v + 1) :: t else (k₂, v) :: bumpA k t

/-- The user-endpoint update of `ProxyStats::inc`: fetch (or create empty)
the user's endpoint map, then increment-or-insert the endpoint counter. -/
def bumpUE (u e : String) : List (String × List (String × Nat)) →
    List (String × List (String × Nat))
  | [] => [(u, [(e, 1)])]
  | (k, m) :: t => if k = u then (k, bumpA e m) :: t else (k, m) :: bumpUE u e t

/-- Embeds `ProxyStats::inc`. -/
def ProxyStats.inc (s : ProxyStats) (endpoint username : String) : ProxyStats :=
  { total := s.total + 1
    endpoint := bumpA endpoint s.endpoint
    user := bumpA username s.user
    user_endpoint := bumpUE username endpoint s.user_endpoint }

/-- The value of a counter map at a key, missing entries reading 0. -/
def cnt (k : String) (l : List (String × Nat)) : Nat :=
  (lookupA k l).getD 0

/-- Sum of the counters of a map (total requests recorded in it). -/
def sumVals (l : List (String × Nat)) : Nat :=
  (l.map Prod.snd).sum

/-- A sequence element for `ProxyStats`-level histories: the three
operations that touch the user-related counters. -/
inductive StatsOp where
  | resetEndpoint (e : String)
  | resetUser (u : String)
  | inc (e u : String)
deriving DecidableEq, Repr

/-- One step of a stats history. -/
def applyStatsOp (s : ProxyStats) : StatsOp → ProxyStats
  | .resetEndpoint e => s.reset_endpoint e
  | .resetUser u => s.reset_user u
  | .inc e u => s.inc e u

/-- The stats after running a history from the zeroed stats. -/
def runStatsOps (ops : List StatsOp) : ProxyStats :=
  ops.foldl applyStatsOp emptyStats

/-! ## Base64 and UTF-8 (environment model of the `base64` crate and of
`String::from_utf8`) -/

/-- The standard base64 alphabet. -/
def base64Chars : List Char :=
  "ABCDEFGHIJKLMNOPQRSTUVWXYZabcdefghijklmnopqrstuvwxyz0123456789+/".data

/-- The 6-bit value of a base64 alphabet character. -/
def base64Index (c : Char) : Option Nat :=
  if 'A' ≤ c ∧ c ≤ 'Z' then some (c.toNat - 65)
  else if 'a' ≤ c ∧ c ≤ 'z' then some (c.toNat - 97 + 26)
  else if '0' ≤ c ∧ c ≤ '9' then some (c.toNat - 48 + 52)
  else if c = '+' then some 62
  else if c = '/' then some 63
  else none

/-- Recombine 6-bit groups into bytes; trailing groups must carry no
leftover set bits (strict decoding, as `base64::decode`). -/
def sextetsToBytes : List Nat → Option (List Nat)
  | a :: b :: c :: d :: t =>
    (sextetsToBytes t).map
      (fun r => (a * 4 + b / 16) :: ((b % 16) * 16 + c / 4) :: ((c % 4) * 64 + d) :: r)
  | [] => some []
  | [_] => none
  | [a, b] => if b % 16 = 0 then some [a * 4 + b / 16] else none
  | [a, b, c] => if c % 4 = 0 then some [a * 4 + b / 16, (b % 16) * 16 + c / 4] else none

/-- Model of `base64::decode` on the standard alphabet: strip canonical
trailing `=` padding, reject foreign characters and a 6-bit group count of
1 mod 4, recombine into bytes. -/
def base64DecodeBytes (s : String) : Option (List Nat) :=
  let cs := s.data
  let body := cs.takeWhile (fun c => c != '=')
  let pad := cs.drop body.length
  if pad.all (fun c => c == '=') ∧ pad.length ≤ 2 then
    (body.mapM base64Index).bind sextetsToBytes
  else none

/-- UTF-8 encoding of one character (environment model). -/
def utf8EncodeChar (c : Char) : List Nat :=
  let n := c.toNat
  if n < 128 then [n]
  else if n < 2048 then [192 + n / 64, 128 + n % 64]
  else if n < 65536 then [224 + n / 4096, 128 + n / 64 % 64, 128 + n % 64]
  else [240 + n / 262144, 128 + n / 4096 % 64, 128 + n / 64 % 64, 128 + n % 64]

/-- UTF-8 decoding with the standard validity checks (environment model of
`String::from_utf8`): rejects continuation-byte leads, overlong forms,
surrogates and code points beyond U+10FFFF. -/
def utf8Decode : List Nat → Option (List Char)
  | [] => some []
  | b :: t =>
    if b < 128 then (utf8Decode t).map (fun r => Char.ofNat b :: r)
    else if b < 194 then none
    else if b < 224 then
      match t with
      | b₂ :: t₂ =>
        if 128 ≤ b₂ ∧ b₂ < 192 then
          (utf8Decode t₂).map (fun r => Char.ofNat ((b - 192) * 64 + (b₂ - 128)) :: r)
        else none
      | [] => none
    else if b < 240 then
      match t with
      | b₂ :: b₃ :: t₃ =>
        if 128 ≤ b₂ ∧ b₂ < 192 ∧ 128 ≤ b₃ ∧ b₃ < 192 then
          let cp := (b - 224) * 4096 + (b₂ - 128) * 64 + (b₃ - 128)
          if cp < 2048 ∨ (55296 ≤ cp ∧ cp < 57344) then none
          else (utf8Decode t₃).map (fun r => Char.ofNat cp :: r)
        else none
      | _ => none
    else if b < 245 then
      match t with
      | b₂ :: b₃ :: b₄ :: t₄ =>
        if 128 ≤ b₂ ∧ b₂ < 192 ∧ 128 ≤ b₃ ∧ b₃ < 192 ∧ 128 ≤ b₄ ∧ b₄ < 192 then
          let cp := (b - 240) * 262144 + (b₂ - 128) * 4096 + (b₃ - 128) * 64 + (b₄ - 128)
          if cp < 65536 ∨ cp > 1114111 then none
          else (utf8Decode t₄).map (fun r => Char.ofNat cp :: r)
        else none
      | _ => none
    else none

/-- Base64 encoding of a byte list with padding (environment model of
`base64::encode`). -/
def base64EncodeBytes : List Nat → List Char
  | [] => []
  | [a] =>
    [base64Chars.getD (a / 4) 'A', base64Chars.getD (a % 4 * 16) 'A', '=', '=']
  | [a, b] =>
    [base64Chars.getD (a / 4) 'A', base64Chars.getD (a % 4 * 16 + b / 16) 'A',
      base64Chars.getD (b % 16 * 4) 'A', '=']
  | a :: b :: c :: t =>
    base64Chars.getD (a / 4) 'A' :: base64Chars.getD (a % 4 * 16 + b / 16) 'A' ::
      base64Chars.getD (b % 16 * 4 + c / 64) 'A' :: base64Chars.getD (c % 64) 'A' ::
      base64EncodeBytes t

/-- Embeds `base64::encode` applied to a Rust string (its UTF-8 bytes). -/
def base64Encode (s : String) : String :=
  ⟨base64EncodeBytes (s.data.flatMap utf8EncodeChar)⟩

/-- Embeds `decode_base64` of `proxy/handler.rs`: base64-decode, then
require valid UTF-8. -/
def decode_base64 (s : String) : Option String :=
  (base64DecodeBytes s).bind (fun bs => (utf8Decode bs).map (fun cs => ⟨cs⟩))

/-! ## Instance-level operations (`Proxy` methods of `proxy.rs`) -/

/-- Embeds `ProxyService::add_user`: reject an existing username, otherwise
store credentials `base64(username ++ ":" ++ password)` in the access set
and the user in the user map. -/
def ProxyService.add_user (svc : ProxyService) (username password : String) :
    Except UserError (ProxyUser × ProxyService) :=
  if containsA username svc.users then .error (.alreadyExists username)
  else
    let credentials := base64Encode (username ++ ":" ++ password)
    let user : ProxyUser := { username := username, credentials := credentials }
    .ok (user,
      { svc with
        access := if svc.access.contains credentials then svc.access
                  else credentials :: svc.access
        users := insertA username user svc.users })

/-- Embeds `ProxyService::remove_user`: drop the user and its credentials
from the access set. -/
def ProxyService.remove_user (svc : ProxyService) (username : String) :
    Except UserError ProxyService :=
  match lookupA username svc.users with
  | some user =>
    .ok { svc with
          access := svc.access.erase user.credentials
          users := removeA username svc.users }
  | none => .error (.notFound username)

/-- Embeds the combined error type `error::Error` (payloads kept as the
strings they are displayed from). -/
inductive TlsErrorM where
  | clientCertStore (msg : String)
  | serverCertStore (msg : String)
  | serverCertKey (msg : String)
  | other (msg : String)
deriving DecidableEq, Repr

/-- Embeds `error::ManagementError`. -/
inductive ManagementErrorM where
  | notRunning
  | bind (address message : String)
deriving DecidableEq, Repr

/-- Embeds `error::ProxyError`. -/
inductive ProxyErrorM where
  | alreadyExists (addr : String)
  | runtime (msg : String)
  | conf (msg : String)
deriving DecidableEq, Repr

/-- Embeds `error::Error`. -/
inductive ErrorM where
  | io (msg : String)
  | url (msg : String)
  | tls (e : TlsErrorM)
  | management (e : ManagementErrorM)
  | proxy (e : ProxyErrorM)
  | service (e : ServiceError)
  | user (e : UserError)
  | other (msg : String)
deriving DecidableEq, Repr

/-- A proxy instance's mutable parts: registry state and stats. -/
structure Instance where
  state : ProxyState
  stats : ProxyStats
deriving DecidableEq, Repr

/-- The instance with empty registry and zeroed counters. -/
def emptyInstance : Instance :=
  { state := emptyState, stats := emptyStats }

/-- Embeds `Proxy::add` of `proxy.rs`: normalize an (effectively) empty
`from` to `/`, insert through `ProxyState::add_service`, then reset the
endpoint counter of the stored service's `from` to 0. -/
def Instance.add (i : Instance) (create : CreateService) :
    Except ServiceError Instance :=
  let create := if strTrim create.from_ = "" then { create with from_ := "/" } else create
  match i.state.add_service create with
  | .ok (service, st₂) =>
    .ok { state := st₂, stats := i.stats.reset_endpoint service.created_with.from_ }
  | .error e => .error e

/-- Embeds `Proxy::remove` of `proxy.rs`: registry removal only; the stats
are untouched. -/
def Instance.remove (i : Instance) (service_name : String) :
    Except ServiceError Instance :=
  match i.state.remove_service service_name with
  | .ok st₂ => .ok { state := st₂, stats := i.stats }
  | .error e => .error e

/-- Embeds `Proxy::add_user` of `proxy.rs`: delegate to the named service,
then reset the user's counters to 0. -/
def Instance.add_user (i : Instance) (service_name username password : String) :
    Except ErrorM Instance :=
  match lookupA service_name i.state.by_name with
  | none => .error (.service (.notFound service_name))
  | some ep =>
    match lookupA ep i.state.by_endpoint with
    | none => .error (.service (.notFound service_name))
    | some svc =>
      match svc.add_user username password with
      | .error e => .error (.user e)
      | .ok (user, svc₂) =>
        .ok { state := { i.state with by_endpoint := updateA ep (fun _ => svc₂) i.state.by_endpoint }
              stats := i.stats.reset_user user.username }

/-- Embeds `Proxy::remove_user` of `proxy.rs`: registry-only mutation. -/
def Instance.remove_user (i : Instance) (service_name username : String) :
    Except ErrorM Instance :=
  match lookupA service_name i.state.by_name with
  | none => .error (.service (.notFound service_name))
  | some ep =>
    match lookupA ep i.state.by_endpoint with
    | none => .error (.service (.notFound service_name))
    | some svc =>
      match svc.remove_user username with
      | .error e => .error (.user e)
      | .ok svc₂ =>
        .ok { state := { i.state with by_endpoint := updateA ep (fun _ => svc₂) i.state.by_endpoint }
              stats := i.stats }

/-- A sequence element for instance histories: the mutating `Proxy`
operations plus the per-request accounting (`ProxyStats::inc` as invoked by
`forward_req` on an authorized request). -/
inductive InstOp where
  | addSvc (create : CreateService)
  | rmSvc (name : String)
  | addUsr (svc user pass : String)
  | rmUsr (svc user : String)
  | req (path user : String)
deriving DecidableEq, Repr

/-- One step of an instance history; failing operations leave the instance
unchanged. -/
def applyInstOp (i : Instance) : InstOp → Instance
  | .addSvc c => match i.add c with | .ok i₂ => i₂ | .error _ => i
  | .rmSvc n => match i.remove n with | .ok i₂ => i₂ | .error _ => i
  | .addUsr s u p => match i.add_user s u p with | .ok i₂ => i₂ | .error _ => i
  | .rmUsr s u => match i.remove_user s u with | .ok i₂ => i₂ | .error _ => i
  | .req path u => { i with stats := i.stats.inc path u }

/-- The instance reached by an instance history from the empty instance. -/
def runInstOps (ops : List InstOp) : Instance :=
  ops.foldl applyInstOp emptyInstance

/-- Embeds `get_user_stats` of `api/handler.rs` after the service lookup:
read the user's counter from the stats, `UserError::NotFound` when the user
has no counter. -/
def get_user_stats (stats : ProxyStats) (username : String) : Except UserError Nat :=
  match lookupA username stats.user with
  | some n => .ok n
  | none => .error (.notFound username)

/-! ## Request forwarding (`proxy/handler.rs`)

`forward_req` consumes the request's URI and headers, the shared state and
stats, and the peer address.  The embedding works on the URI view of a
service's `from`/`to` (the types `merge_path_and_query` receives), keeping
the access set alongside, and returns either a locally produced response or
the dispatched backend request. -/

/-- The handler-level view of a registered service: the `created_with.from`
and `created_with.to` URIs cloned out in `forward_req`, and the service's
credential set. -/
structure HService where
  created_from : Uri
  created_to : Uri
  access : List String
deriving DecidableEq, Repr

/-- The handler-level view of `ProxyState`: services indexed by endpoint
prefix. -/
structure HState where
  by_endpoint : List (String × HService)
deriving DecidableEq, Repr

/-- The request headers `forward_req` reads.  Header values are modelled as
strings; `HeaderValue::to_str` restricts them to visible ASCII, where
character positions and byte positions coincide. -/
structure HeaderMapM where
  authorization : Option String
  host : Option String
deriving DecidableEq, Repr

/-- An incoming request: URI plus headers. -/
structure RequestM where
  uri : Uri
  headers : HeaderMapM
deriving DecidableEq, Repr

/-- A response produced locally by the proxy: status, the only header the
handler ever sets on such responses, and the body. -/
structure ResponseM where
  status : Nat
  wwwAuthenticate : Option String
  body : String
deriving DecidableEq, Repr

/-- Embeds `response` of `proxy/handler.rs`: an empty-body response that
carries `WWW-Authenticate: Basic realm="Service access"` exactly when the
status is 401. -/
def response (code : Nat) : ResponseM :=
  { status := code
    wwwAuthenticate := if code = 401 then some "Basic realm=\"Service access\"" else none
    body := "" }

/-- ASCII lower-casing of one character (Rust `eq_ignore_ascii_case`). -/
def asciiLower (c : Char) : Char :=
  if 'A' ≤ c ∧ c ≤ 'Z' then Char.ofNat (c.toNat + 32) else c

/-- Embeds `str::eq_ignore_ascii_case`. -/
def eqIgnoreAsciiCase (a b : String) : Bool :=
  a.data.map asciiLower == b.data.map asciiLower

/-- Embeds `extract_basic_auth` of `proxy/handler.rs`: split the
`Authorization` value at its first space, require the scheme to compare
case-insensitively to `basic`, and return the trimmed remainder. -/
def extract_basic_auth (headers : HeaderMapM) : Except Unit String :=
  match headers.authorization with
  | some auth =>
    let pre := auth.data.takeWhile (fun c => c != ' ')
    if pre.length < auth.data.length then
      if eqIgnoreAsciiCase ⟨pre⟩ "basic" then
        .ok (strTrim ⟨auth.data.drop (pre.length + 1)⟩)
      else .error ()
    else .error ()
  | none => .error ()

/-- Embeds `extract_username` of `proxy/handler.rs`: the prefix of the
decoded credentials up to the first `:`.  (`splitn(2, ':').next()` always
yields an element, so the Rust error branch is unreachable.) -/
def extract_username (decoded : String) : Except Unit String :=
  .ok ⟨decoded.data.takeWhile (fun c => c != ':')⟩

/-- Embeds `extract_host` of `proxy/handler.rs`. -/
def extract_host (headers : HeaderMapM) : Option String :=
  headers.host

/-- The outcome of `forward_req`: either a locally produced response
(nothing reaches the backend), or the dispatch of the rewritten request
with the injected forwarding headers and the updated stats. -/
inductive ForwardResult where
  | respond (r : ResponseM)
  | dispatch (uri : Uri) (xForwardedFor : String) (xForwardedHost : Option String)
      (stats : ProxyStats)
deriving DecidableEq, Repr

/-- Embeds `forward_req` of `proxy/handler.rs`: endpoint match, Basic-auth
check, credential decoding, stats accounting, header injection and path
rewrite.  (`PathAndQuery::try_from` failure, answered with 500, is not
modelled: the merge of valid path-and-query strings is valid.) -/
def forward_req (req : RequestM) (state : HState) (stats : ProxyStats)
    (addressIp : String) : ForwardResult :=
  let path := pathOf req.uri.paq
  match state.by_endpoint.find? (fun p => strStartsWith path p.1) with
  | none => .respond (response 404)
  | some (_, service) =>
    match extract_basic_auth req.headers with
    | .error _ => .respond (response 401)
    | .ok auth =>
      if !(service.access.contains auth) then .respond (response 401)
      else
        match decode_base64 auth with
        | none => .respond (response 403)
        | some decoded =>
          match extract_username decoded with
          | .error _ => .respond (response 403)
          | .ok username =>
            .dispatch (merge_path_and_query req.uri service.created_from service.created_to)
              addressIp (extract_host req.headers) (stats.inc path username)

/-! ## Management-API error mapping (`api.rs`, `error.rs`) -/

/-- JSON string escaping as performed by `serde_json` (short escapes for
the usual control characters, `\u00XX` for the rest). -/
def jsonEscapeChar (c : Char) : String :=
  if c = '"' then "\\\""
  else if c = '\\' then "\\\\"
  else if c = '\x08' then "\\b"
  else if c = '\x09' then "\\t"
  else if c = '\x0a' then "\\n"
  else if c = '\x0c' then "\\f"
  else if c = '\x0d' then "\\r"
  else if c.toNat < 32 then
    let hex := fun (n : Nat) => base64Chars.getD (if n < 10 then 52 + n else 26 + n - 10) '0'
    "\\u00" ++ ⟨[hex (c.toNat / 16), hex (c.toNat % 16)]⟩
  else ⟨[c]⟩

/-- JSON encoding of a string value (`serde_json::to_string`). -/
def jsonEncodeString (s : String) : String :=
  "\"" ++ String.join (s.data.map jsonEscapeChar) ++ "\""

/-- The serialized `model::ErrorResponse` body produced by `err_response`
of `api.rs`. -/
def errorResponseBody (msg : String) : String :=
  "\x7b\"message\":" ++ jsonEncodeString msg ++ "\x7d"

/-- Display of `error::TlsError` (`thiserror` attributes). -/
def displayTlsError : TlsErrorM → String
  | .clientCertStore m => "Client CA certificate error: " ++ m
  | .serverCertStore m => "Server certificate error: " ++ m
  | .serverCertKey m => "Server key error: " ++ m
  | .other m => "TLS error: " ++ m

/-- Display of `error::ManagementError`. -/
def displayManagementError : ManagementErrorM → String
  | .notRunning => "Management API server is not running"
  | .bind a m => "Management API server cannot bind to " ++ a ++ ": " ++ m

/-- Display of `error::ProxyError`. -/
def displayProxyError : ProxyErrorM → String
  | .alreadyExists a => "Proxy is already running on " ++ a
  | .runtime m => "Proxy runtime error: " ++ m
  | .conf m => "Proxy configuration error: " ++ m

/-- Display of `error::ServiceError`. -/
def displayServiceError : ServiceError → String
  | .alreadyExists name endpoint =>
    "Service '" ++ name ++ "' is already bound to '" ++ endpoint ++ "'"
  | .notFound name => "Service '" ++ name ++ "' not found"

/-- Display of `error::UserError`. -/
def displayUserError : UserError → String
  | .alreadyExists name => "User already '" ++ name ++ "' exists"
  | .notFound name => "User '" ++ name ++ "' not found"

/-- Display of `error::Error` (the `transparent` variants forward to their
payload's display). -/
def displayError : ErrorM → String
  | .io m => "I/O error: " ++ m
  | .url m => "Invalid URL: " ++ m
  | .tls e => displayTlsError e
  | .management e => displayManagementError e
  | .proxy e => displayProxyError e
  | .service e => displayServiceError e
  | .user e => displayUserError e
  | .other m => m

/-- Embeds `ApiErrorKind` of `api.rs`. -/
inductive ApiErrorKind where
  | badRequest (e : ErrorM)
  | conflict (e : ErrorM)
  | internalServerError (msg : String)
deriving DecidableEq, Repr

/-- Embeds the blanket `impl From<T> for ApiErrorKind` of `api.rs`: the
three `AlreadyExists` shapes become `Conflict`, every other `Error` becomes
`BadRequest`. -/
def ApiErrorKind.ofError : ErrorM → ApiErrorKind
  | .proxy (.alreadyExists a) => .conflict (.proxy (.alreadyExists a))
  | .service (.alreadyExists n e) => .conflict (.service (.alreadyExists n e))
  | .user (.alreadyExists n) => .conflict (.user (.alreadyExists n))
  | e => .badRequest e

/-- Embeds `impl From<hyper::Error> for ApiErrorKind`. -/
def ApiErrorKind.ofHyperError (msg : String) : ApiErrorKind :=
  .internalServerError msg

/-- Embeds `impl From<hyper::http::Error> for ApiErrorKind`. -/
def ApiErrorKind.ofHttpError (msg : String) : ApiErrorKind :=
  .internalServerError msg

/-- Embeds `impl From<serde_json::Error> for ApiErrorKind`. -/
def ApiErrorKind.ofJsonError (msg : String) : ApiErrorKind :=
  .badRequest (.other msg)

/-- The message `err_handler` of `api.rs` passes to `err_response` (the
inner error's display). -/
def apiMessage : ApiErrorKind → String
  | .badRequest e => displayError e
  | .conflict e => displayError e
  | .internalServerError m => m

/-- Embeds `err_handler` of `api.rs`: the HTTP status and the serialized
`{"message": ...}` body of an error response. -/
def apiResponse (k : ApiErrorKind) : Nat × String :=
  match k with
  | .badRequest e => (400, errorResponseBody (displayError e))
  | .conflict e => (409, errorResponseBody (displayError e))
  | .internalServerError m => (500, errorResponseBody m)

/-- The HTTP status of an API error response. -/
def apiStatus (k : ApiErrorKind) : Nat :=
  (apiResponse k).1

/-- Whether an `error::Error` is one of the three `AlreadyExists` shapes. -/
def isAlreadyExistsError : ErrorM → Bool
  | .proxy (.alreadyExists _) => true
  | .service (.alreadyExists _ _) => true
  | .user (.alreadyExists _) => true
  | _ => false

/-! ## Client SDK (`ya-http-proxy-client/src/web.rs`, `src/error.rs`) -/

/-- Embeds the client-side `Error` type of
`ya-http-proxy-client/src/error.rs` (payloads as display strings). -/
inductive ClientError where
  | sendRequestError (code : Nat) (msg : String) (method url : String)
  | jsonError (msg : String)
  | utf8Error (msg : String)
  | payloadError (msg : String)
  | invalidUriError (msg : String)
deriving DecidableEq, Repr

/-- Embeds `Error::from_request`: a transport-level send failure is wrapped
with the hard-coded status `INTERNAL_SERVER_ERROR` (500) and the transport
error's display text. -/
def fromRequest (errMsg method url : String) : ClientError :=
  .sendRequestError 500 errMsg method url

/-- The parts of an HTTP response `WebClient::request` inspects. -/
structure HttpResponseM where
  status : Nat
  contentLength : Option String
  body : String
deriving DecidableEq, Repr

/-- Embeds the response handling of `WebClient::request` in `web.rs`: a 204
status or a `Content-Length: 0` header decodes as the unit JSON value
(`serde_json::from_value(json!(()))`, given as `unitFromNull`); any other
response has its body parsed as the expected type `α` (`decode` models
`serde_json::from_str::<R>`), a parse failure surfacing as a JSON error.
The status is inspected nowhere else. -/
def webRequestDecode {α : Type} (decode : String → Option α) (unitFromNull : Option α)
    (res : HttpResponseM) : Except ClientError α :=
  if res.status = 204 ∨ res.contentLength = some "0" then
    match unitFromNull with
    | some a => .ok a
    | none => .error (.jsonError "invalid type: null")
  else
    match decode res.body with
    | some a => .ok a
    | none => .error (.jsonError res.body)

/-- Whether a client result is a `SendRequestError`. -/
def isSendRequestError {α : Type} : Except ClientError α → Bool
  | .error (.sendRequestError _ _ _ _) => true
  | _ => false

/-- Model of `serde_json::from_str::<()>`: only the JSON literal `null`
deserializes to the Rust unit type. -/
def decodeUnit (s : String) : Option Unit :=
  if s = "null" then some () else none

/-! ## Invariant statements -/

/-- The pair of properties claimed for any two distinct endpoints: neither
is a prefix of the other (equality is excluded since every string is a
prefix of itself). -/
def prefixIncomp (a b : String) : Prop :=
  strStartsWith a b = false ∧ strStartsWith b a = false

/-- The four `ProxyState` invariants: (a) `by_name` values are `by_endpoint`
keys, (b) names are unique, (c) endpoints are pairwise prefix-incomparable,
(d) endpoints begin with `/`. -/
def stateInv (st : ProxyState) : Prop :=
  (∀ n e, lookupA n st.by_name = some e → containsA e st.by_endpoint = true) ∧
  (keysA st.by_name).Nodup ∧
  List.Pairwise prefixIncomp (keysA st.by_endpoint) ∧
  (∀ e, e ∈ keysA st.by_endpoint → strStartsWith e "/" = true)

/-- The inductive strengthening of `stateInv`: additionally `by_name` is
injective (two names never share an endpoint). -/
def stateInvStrong (st : ProxyState) : Prop :=
  stateInv st ∧
  ∀ n₁ n₂ e, lookupA n₁ st.by_name = some e → lookupA n₂ st.by_name = some e → n₁ = n₂

/-- The `ProxyStats` linkage between the per-user and the per-user
per-endpoint counters: same key sets, and each user counter is the sum of
that user's endpoint counters. -/
def statsInv (s : ProxyStats) : Prop :=
  (∀ u, containsA u s.user = containsA u s.user_endpoint) ∧
  (∀ u m, lookupA u s.user_endpoint = some m → lookupA u s.user = some (sumVals m))

/-! ## Association-list lemmas -/

theorem keysA_cons {α : Type} (p : String × α) (t : List (String × α)) :
    keysA (p :: t) = p.1 :: keysA t := rfl

theorem lookupA_removeA {α : Type} (k q : String) (l : List (String × α)) :
    lookupA q (removeA k l) = if q = k then none else lookupA q l := by
  induction l with
  | nil => simp [removeA, lookupA]
  | cons p t ih =>
    obtain ⟨k₂, v⟩ := p
    by_cases h₁ : k₂ = k
    · subst h₁
      by_cases h₂ : q = k₂
      · subst h₂; simpa [removeA, lookupA] using ih
      · simpa [removeA, lookupA, h₂, Ne.symm h₂] using ih
    · by_cases h₂ : k₂ = q
      · subst h₂
        simp [removeA, lookupA, h₁, Ne.symm h₁]
      · simpa [removeA, lookupA, h₁, h₂] using ih

theorem lookupA_insertA {α : Type} (k q : String) (v : α) (l : List (String × α)) :
    lookupA q (insertA k v l) = if q = k then some v else lookupA q l := by
  by_cases h : q = k
  · subst h; simp [insertA, lookupA]
  · have h₂ : ¬ k = q := fun hh => h hh.symm
    simp [insertA, lookupA, h, h₂, lookupA_removeA]

theorem containsA_iff_mem {α : Type} (k : String) (l : List (String × α)) :
    containsA k l = true ↔ k ∈ keysA l := by
  induction l with
  | nil => simp [containsA, lookupA, keysA]
  | cons p t ih =>
    obtain ⟨k₂, v⟩ := p
    by_cases h : k₂ = k
    · subst h; simp [containsA, lookupA, keysA]
    · have h₂ : ¬ k = k₂ := fun hh => h hh.symm
      simp only [containsA, lookupA, h, if_false, keysA_cons, List.mem_cons]
      rw [show (lookupA k t).isSome = containsA k t from rfl, ih]
      simp [h₂]

theorem mem_keysA_of_lookupA {α : Type} {k : String} {l : List (String × α)} {v : α}
    (h : lookupA k l = some v) : k ∈ keysA l := by
  refine (containsA_iff_mem k l).mp ?_
  simp [containsA, h]

theorem keysA_removeA {α : Type} (k : String) (l : List (String × α)) :
    keysA (removeA k l) = (keysA l).filter (fun x => x != k) := by
  induction l with
  | nil => rfl
  | cons p t ih =>
    obtain ⟨k₂, v⟩ := p
    by_cases h : k₂ = k <;> simp [removeA, keysA, List.filter_cons, h] at ih ⊢ <;>
      simpa [removeA, keysA] using ih

theorem removeA_eq_self {α : Type} {k : String} {l : List (String × α)}
    (h : k ∉ keysA l) : removeA k l = l := by
  refine List.filter_eq_self.mpr ?_
  intro p hp
  have : p.1 ∈ keysA l := List.mem_map.mpr ⟨p, hp, rfl⟩
  simp only [bne_iff_ne, ne_eq]
  intro hk
  exact h (hk ▸ this)

theorem nodup_keysA_insertA {α : Type} (k : String) (v : α) {l : List (String × α)}
    (h : (keysA l).Nodup) : (keysA (insertA k v l)).Nodup := by
  have hk : keysA (insertA k v l) = k :: (keysA l).filter (fun x => x != k) := by
    simp [insertA, keysA_cons, keysA_removeA]
  rw [hk]
  refine List.Nodup.cons ?_ (h.filter _)
  intro hmem
  have := List.of_mem_filter hmem
  simp at this

theorem pairwise_keysA_removeA {α : Type} {R : String → String → Prop} (k : String)
    {l : List (String × α)} (h : List.Pairwise R (keysA l)) :
    List.Pairwise R (keysA (removeA k l)) := by
  rw [keysA_removeA]
  exact h.filter _

/-! ## String lemmas -/

theorem strStartsWith_refl (s : String) : strStartsWith s s = true := by
  simp [strStartsWith, List.isPrefixOf_iff_prefix]

theorem strStartsWith_slash_append (s : String) : strStartsWith ("/" ++ s) "/" = true := by
  obtain ⟨d⟩ := s
  show List.isPrefixOf ['/'] ('/' :: d) = true
  simp [List.isPrefixOf]

theorem normalizeEndpoint_startsWith (s : String) :
    strStartsWith (normalizeEndpoint s) "/" = true := by
  unfold normalizeEndpoint
  by_cases h : strStartsWith (strTrim s) "/" = true
  · simp [h]
  · simp only [h, if_false, eq_self_iff_true]
    exact strStartsWith_slash_append _

theorem ne_of_strStartsWith_eq_false {a b : String} (h : strStartsWith a b = false) :
    a ≠ b := by
  intro hab
  rw [hab, strStartsWith_refl b] at h
  simp at h

/-! ## Registry invariant preservation -/

theorem add_service_ok {st : ProxyState} {c : CreateService} {svc : ProxyService}
    {st₂ : ProxyState} (h : st.add_service c = .ok (svc, st₂)) :
    containsA c.name st.by_name = false ∧
    (∀ e ∈ keysA st.by_endpoint,
      strStartsWith e (normalizeEndpoint c.from_) = false ∧
      strStartsWith (normalizeEndpoint c.from_) e = false) ∧
    st₂ = { by_name := insertA c.name (normalizeEndpoint c.from_) st.by_name
            by_endpoint := insertA (normalizeEndpoint c.from_) (ProxyService.new c)
              st.by_endpoint } := by
  unfold ProxyState.add_service at h
  by_cases h₁ : containsA c.name st.by_name = true
  · simp [h₁] at h
  · by_cases h₂ : (keysA st.by_endpoint).any
        (fun e => strStartsWith e (normalizeEndpoint c.from_) ||
          strStartsWith (normalizeEndpoint c.from_) e) = true
    · simp [h₁, h₂] at h
    · refine ⟨by simpa using h₁, ?_, ?_⟩
      · intro e he
        have hne : ¬ (strStartsWith e (normalizeEndpoint c.from_) ||
            strStartsWith (normalizeEndpoint c.from_) e) = true := by
          intro hb
          exact h₂ (List.any_eq_true.mpr ⟨e, he, hb⟩)
        simp only [Bool.or_eq_true, not_or, Bool.not_eq_true] at hne
        exact hne
      · simp [h₁, h₂] at h
        exact h.2.symm

theorem stateInvStrong_step (st : ProxyState) (op : StateOp) (h : stateInvStrong st) :
    stateInvStrong (applyStateOp st op) := by
  obtain ⟨⟨ha, hb, hc, hd⟩, hinj⟩ := h
  cases op with
  | add c =>
    simp only [applyStateOp]
    split
    · next svc st₂ heq =>
      obtain ⟨h₁, h₂, h₃⟩ := add_service_ok heq
      subst h₃
      have hname : c.name ∉ keysA st.by_name := by
        rw [← containsA_iff_mem]
        simp [h₁]
      have hEnot : normalizeEndpoint c.from_ ∉ keysA st.by_endpoint := by
        intro hmem
        have := (h₂ _ hmem).1
        rw [strStartsWith_refl] at this
        simp at this
      have hkeys : keysA (insertA (normalizeEndpoint c.from_) (ProxyService.new c)
          st.by_endpoint) = normalizeEndpoint c.from_ :: keysA st.by_endpoint := by
        simp [insertA, keysA_cons, removeA_eq_self hEnot]
      refine ⟨⟨?_, ?_, ?_, ?_⟩, ?_⟩
      · intro n e hlook
        simp only at hlook ⊢
        rw [lookupA_insertA] at hlook
        by_cases hn : n = c.name
        · rw [if_pos hn] at hlook
          obtain rfl : normalizeEndpoint c.from_ = e := by injection hlook
          simp [containsA, lookupA_insertA]
        · rw [if_neg hn] at hlook
          have hold := ha n e hlook
          by_cases hEe : e = normalizeEndpoint c.from_
          · simp [containsA, lookupA_insertA, hEe]
          · simp only [containsA, lookupA_insertA, if_neg hEe]
            simpa [containsA] using hold
      · simp only
        exact nodup_keysA_insertA _ _ hb
      · simp only
        rw [hkeys]
        refine List.pairwise_cons.mpr ⟨?_, hc⟩
        intro b hbmem
        exact ⟨(h₂ b hbmem).2, (h₂ b hbmem).1⟩
      · intro e he
        simp only at he
        rw [hkeys] at he
        rcases List.mem_cons.mp he with rfl | he₂
        · exact normalizeEndpoint_startsWith _
        · exact hd e he₂
      · intro n₁ n₂ e hl₁ hl₂
        simp only at hl₁ hl₂
        rw [lookupA_insertA] at hl₁ hl₂
        by_cases hn₁ : n₁ = c.name <;> by_cases hn₂ : n₂ = c.name
        · rw [hn₁, hn₂]
        · rw [if_pos hn₁] at hl₁
          rw [if_neg hn₂] at hl₂
          obtain rfl : normalizeEndpoint c.from_ = e := by injection hl₁
          have := ha n₂ _ hl₂
          rw [containsA_iff_mem] at this
          exact absurd this hEnot
        · rw [if_neg hn₁] at hl₁
          rw [if_pos hn₂] at hl₂
          obtain rfl : normalizeEndpoint c.from_ = e := by injection hl₂
          have := ha n₁ _ hl₁
          rw [containsA_iff_mem] at this
          exact absurd this hEnot
        · rw [if_neg hn₁] at hl₁
          rw [if_neg hn₂] at hl₂
          exact hinj n₁ n₂ e hl₁ hl₂
    · next e heq =>
      exact ⟨⟨ha, hb, hc, hd⟩, hinj⟩
  | remove n =>
    simp only [applyStateOp]
    split
    · next st₂ heq =>
      unfold ProxyState.remove_service at heq
      cases hlook : lookupA n st.by_name with
      | none => simp [hlook] at heq
      | some ep =>
        simp only [hlook] at heq
        obtain rfl : ({ by_name := removeA n st.by_name
                        by_endpoint := removeA ep st.by_endpoint } : ProxyState) = st₂ := by
          injection heq
        refine ⟨⟨?_, ?_, ?_, ?_⟩, ?_⟩
        · intro n₂ e hl
          simp only [lookupA_removeA] at hl
          by_cases hn₂ : n₂ = n
          · simp [hn₂] at hl
          · rw [if_neg hn₂] at hl
            have hold := ha n₂ e hl
            have hne : e ≠ ep := by
              intro hep
              exact hn₂ (hinj n₂ n e hl (by rw [hep]; exact hlook))
            simp only [containsA, lookupA_removeA, if_neg hne]
            simpa [containsA] using hold
        · simp only [keysA_removeA]
          exact hb.filter _
        · exact pairwise_keysA_removeA ep hc
        · intro e he
          simp only [keysA_removeA, List.mem_filter] at he
          exact hd e he.1
        · intro n₁ n₂ e hl₁ hl₂
          simp only [lookupA_removeA] at hl₁ hl₂
          by_cases h₁ : n₁ = n
          · simp [h₁] at hl₁
          · by_cases h₂ : n₂ = n
            · simp [h₂] at hl₂
            · rw [if_neg h₁] at hl₁
              rw [if_neg h₂] at hl₂
              exact hinj n₁ n₂ e hl₁ hl₂
    · next e heq =>
      exact ⟨⟨ha, hb, hc, hd⟩, hinj⟩

theorem stateInvStrong_empty : stateInvStrong emptyState := by
  refine ⟨⟨?_, ?_, ?_, ?_⟩, ?_⟩ <;> simp [emptyState, lookupA, keysA]

theorem stateInvStrong_fold (ops : List StateOp) :
    ∀ st, stateInvStrong st → stateInvStrong (ops.foldl applyStateOp st) := by
  induction ops with
  | nil => intro st h; exact h
  | cons op t ih =>
    intro st h
    exact ih _ (stateInvStrong_step st op h)

/-! ## Statistics lemmas -/

theorem lookupA_bumpA (k e : String) (l : List (String × Nat)) :
    lookupA k (bumpA e l) = if k = e then some ((lookupA e l).getD 0 + 1) else lookupA k l := by
  induction l with
  | nil =>
    by_cases h : k = e
    · subst h; simp [bumpA, lookupA]
    · have h₂ : ¬ e = k := fun hh => h hh.symm
      simp [bumpA, lookupA, h, h₂]
  | cons p t ih =>
    obtain ⟨k₂, v⟩ := p
    by_cases h : k₂ = e
    · subst h
      by_cases hk : k₂ = k
      · subst hk; simp [bumpA, lookupA]
      · have hk₂ : ¬ k = k₂ := fun hh => hk hh.symm
        simp [bumpA, lookupA, hk, hk₂]
    · by_cases hk : k₂ = k
      · subst hk
        simp [bumpA, lookupA, h]
      · have hk₂ : ¬ k = k₂ := fun hh => hk hh.symm
        simp only [bumpA, lookupA, if_neg h, if_neg hk]
        rw [ih]

theorem cnt_bumpA_mono (k e : String) (l : List (String × Nat)) :
    cnt k l ≤ cnt k (bumpA e l) := by
  unfold cnt
  rw [lookupA_bumpA]
  by_cases h : k = e
  · subst h; simp
  · simp [h]

theorem lookupA_bumpUE (k u e : String) (l : List (String × List (String × Nat))) :
    lookupA k (bumpUE u e l) =
      if k = u then some (bumpA e ((lookupA u l).getD [])) else lookupA k l := by
  induction l with
  | nil =>
    by_cases h : k = u
    · subst h; simp [bumpUE, lookupA, bumpA]
    · have h₂ : ¬ u = k := fun hh => h hh.symm
      simp [bumpUE, lookupA, h, h₂]
  | cons p t ih =>
    obtain ⟨k₂, m⟩ := p
    by_cases h : k₂ = u
    · subst h
      by_cases hk : k₂ = k
      · subst hk; simp [bumpUE, lookupA]
      · have hk₂ : ¬ k = k₂ := fun hh => hk hh.symm
        simp [bumpUE, lookupA, hk, hk₂]
    · by_cases hk : k₂ = k
      · subst hk
        simp [bumpUE, lookupA, h]
      · have hk₂ : ¬ k = k₂ := fun hh => hk hh.symm
        simp only [bumpUE, lookupA, if_neg h, if_neg hk]
        rw [ih]

theorem sumVals_bumpA (e : String) (l : List (String × Nat)) :
    sumVals (bumpA e l) = sumVals l + 1 := by
  induction l with
  | nil => simp [bumpA, sumVals]
  | cons p t ih =>
    obtain ⟨k₂, v⟩ := p
    by_cases h : k₂ = e
    · subst h; simp [bumpA, sumVals]; omega
    · simp only [bumpA, if_neg h, sumVals, List.map_cons, List.sum_cons] at ih ⊢
      omega

theorem statsInv_step (s : ProxyStats) (op : StatsOp) (h : statsInv s) :
    statsInv (applyStatsOp s op) := by
  obtain ⟨hk, hs⟩ := h
  cases op with
  | resetEndpoint e =>
    exact ⟨hk, hs⟩
  | resetUser u =>
    constructor
    · intro x
      simp only [applyStatsOp, ProxyStats.reset_user, containsA, lookupA_insertA]
      by_cases hx : x = u
      · simp [hx]
      · simp only [if_neg hx]
        simpa [containsA] using hk x
    · intro x m hl
      simp only [applyStatsOp, ProxyStats.reset_user, lookupA_insertA] at hl ⊢
      by_cases hx : x = u
      · rw [if_pos hx] at hl ⊢
        obtain rfl : ([] : List (String × Nat)) = m := by injection hl
        simp [sumVals]
      · rw [if_neg hx] at hl ⊢
        exact hs x m hl
  | inc e u =>
    constructor
    · intro x
      simp only [applyStatsOp, ProxyStats.inc, containsA, lookupA_bumpA, lookupA_bumpUE]
      by_cases hx : x = u
      · simp [hx]
      · simp only [if_neg hx]
        simpa [containsA] using hk x
    · intro x m hl
      simp only [applyStatsOp, ProxyStats.inc, lookupA_bumpUE] at hl
      simp only [applyStatsOp, ProxyStats.inc, lookupA_bumpA]
      by_cases hx : x = u
      · rw [if_pos hx] at hl ⊢
        obtain rfl : bumpA e ((lookupA u s.user_endpoint).getD []) = m := by injection hl
        rw [sumVals_bumpA]
        have hbase : (lookupA u s.user).getD 0 = sumVals ((lookupA u s.user_endpoint).getD []) := by
          cases hue : lookupA u s.user_endpoint with
          | some m₁ =>
            rw [hs u m₁ hue]
            rfl
          | none =>
            have hcf : containsA u s.user_endpoint = false := by simp [containsA, hue]
            have hcu := hk u
            rw [hcf] at hcu
            have : lookupA u s.user = none := by
              cases hl₂ : lookupA u s.user with
              | none => rfl
              | some n => rw [containsA, hl₂] at hcu; simp at hcu
            simp [this, sumVals]
        rw [hbase]
      · rw [if_neg hx] at hl ⊢
        exact hs x m hl

theorem statsInv_empty : statsInv emptyStats := by
  constructor
  · intro u; rfl
  · intro u m hl; simp [emptyStats, lookupA] at hl

theorem statsInv_fold (ops : List StatsOp) :
    ∀ s, statsInv s → statsInv (ops.foldl applyStatsOp s) := by
  induction ops with
  | nil => intro s h; exact h
  | cons op t ih =>
    intro s h
    exact ih _ (statsInv_step s op h)

/-! ## Instance-operation frame lemmas -/

theorem rmSvc_stats_frame (i : Instance) (n : String) :
    (applyInstOp i (.rmSvc n)).stats = i.stats := by
  simp only [applyInstOp, Instance.remove]
  cases h : i.state.remove_service n <;> simp [h]

theorem rmUsr_stats_frame (i : Instance) (sn un : String) :
    (applyInstOp i (.rmUsr sn un)).stats = i.stats := by
  simp only [applyInstOp, Instance.remove_user]
  cases h₁ : lookupA sn i.state.by_name with
  | none => simp [h₁]
  | some ep =>
    simp only [h₁]
    cases h₂ : lookupA ep i.state.by_endpoint with
    | none => simp [h₂]
    | some svc =>
      simp only [h₂]
      cases h₃ : svc.remove_user un <;> simp [h₃]

/-! ## Claim theorems -/

/-- C1: for every row of the canonical path-rewrite test table of §4.3.1
and for the §8 path-rewrite edge scenario, `merge_path_and_query` applied
to the row's from URI, to URI and request URI produces exactly the expected
URI (URI equality as in the `http` crate); in particular for from `/sub/2`,
to `http://b/to` and request path `/sub/2/`, the result is
`http://b/to/`. -/
theorem merge_canonical_table :
    uriEq (merge_path_and_query ⟨none, none, some "/eth/v1/node/syncing"⟩
        ⟨none, none, some "/"⟩ ⟨some "http", some "127.0.0.1:5050", some "/"⟩)
      ⟨some "http", some "127.0.0.1:5050", some "/eth/v1/node/syncing"⟩ = true ∧
    uriEq (merge_path_and_query ⟨some "http", some "1.0.0.1", none⟩
        ⟨none, none, some "/"⟩ ⟨some "http", some "127.0.0.1", none⟩)
      ⟨some "http", some "127.0.0.1", some "/"⟩ = true ∧
    uriEq (merge_path_and_query ⟨some "http", some "1.0.0.1", some "/"⟩
        ⟨none, none, some "/"⟩ ⟨some "http", some "127.0.0.1", some "/to"⟩)
      ⟨some "http", some "127.0.0.1", some "/to"⟩ = true ∧
    uriEq (merge_path_and_query ⟨some "http", some "1.0.0.1", none⟩
        ⟨none, none, some "/"⟩ ⟨some "http", some "127.0.0.1", some "/to/"⟩)
      ⟨some "http", some "127.0.0.1", some "/to/"⟩ = true ∧
    uriEq (merge_path_and_query ⟨some "http", some "1.0.0.1", some "/sub/"⟩
        ⟨none, none, some "/sub"⟩ ⟨some "http", some "127.0.0.1", some "/"⟩)
      ⟨some "http", some "127.0.0.1", some "/"⟩ = true ∧
    uriEq (merge_path_and_query ⟨some "http", some "1.0.0.1", some "/sub/2"⟩
        ⟨none, none, some "/sub/2"⟩ ⟨some "http", some "127.0.0.1", some "/to"⟩)
      ⟨some "http", some "127.0.0.1", some "/to"⟩ = true ∧
    uriEq (merge_path_and_query ⟨some "http", some "1.0.0.1", some "/sub/2/test"⟩
        ⟨none, none, some "/sub/2"⟩ ⟨some "http", some "127.0.0.1", some "/to"⟩)
      ⟨some "http", some "127.0.0.1", some "/to/test"⟩ = true ∧
    uriEq (merge_path_and_query ⟨some "http", some "1.0.0.1", some "/resource/"⟩
        ⟨none, none, some "/"⟩ ⟨some "http", some "127.0.0.1", some "/to"⟩)
      ⟨some "http", some "127.0.0.1", some "/to/resource/"⟩ = true ∧
    uriEq (merge_path_and_query ⟨none, none, some "/sub/2/"⟩
        ⟨none, none, some "/sub/2"⟩ ⟨some "http", some "b", some "/to"⟩)
      ⟨some "http", some "b", some "/to/"⟩ = true := by
  decide

/-- C2: starting from the empty `ProxyState`, every sequence of
`add_service` and `remove_service` operations (operations returning an
error leaving the state unchanged) preserves the four state invariants:
(a) every `by_name` value is a `by_endpoint` key, (b) service names are
unique, (c) distinct endpoints are prefix-incomparable, (d) every endpoint
begins with `/`. -/
theorem proxy_state_invariants (ops : List StateOp) :
    (∀ n e, lookupA n (runStateOps ops).by_name = some e →
      containsA e (runStateOps ops).by_endpoint = true) ∧
    (keysA (runStateOps ops).by_name).Nodup ∧
    (∀ e₁, e₁ ∈ keysA (runStateOps ops).by_endpoint →
      ∀ e₂, e₂ ∈ keysA (runStateOps ops).by_endpoint → e₁ ≠ e₂ →
        strStartsWith e₁ e₂ = false ∧ strStartsWith e₂ e₁ = false) ∧
    (∀ e, e ∈ keysA (runStateOps ops).by_endpoint → strStartsWith e "/" = true) := by
  have h := stateInvStrong_fold ops emptyState stateInvStrong_empty
  obtain ⟨⟨ha, hb, hc, hd⟩, _⟩ := h
  refine ⟨ha, hb, ?_, hd⟩
  intro e₁ h₁ e₂ h₂ hne
  exact hc.forall (fun a b hab => ⟨hab.2, hab.1⟩) h₁ h₂ hne

/-- C2 witness: a concrete history whose resulting state is evaluated
through the invariant theorem. -/
theorem proxy_state_invariants_witness :
    containsA "/x" (runStateOps [.add ⟨"s", "/x"⟩]).by_endpoint = true := by
  have h := proxy_state_invariants [.add ⟨"s", "/x"⟩]
  exact h.1 "s" "/x" (by decide)

/-- C3 counterexample: `extract_from` maps the path-and-query `/` to `/`,
not to the empty string, and consequently a service with from path `/` and
to path-and-query `/to` rewrites a request with path `/` to `/to`, not to
`/to/` as the claim states (this is exactly row 3 of the canonical table). -/
theorem merge_root_counterexample :
    extract_from (some "/") = "/" ∧ ("/" : String) ≠ "" ∧
    merge_path_and_query ⟨some "http", some "1.0.0.1", some "/"⟩ ⟨none, none, some "/"⟩
      ⟨some "http", some "127.0.0.1", some "/to"⟩ =
      ⟨some "http", some "127.0.0.1", some "/to"⟩ ∧
    (some "/to" : Option String) ≠ some "/to/" := by
  decide

/-- C3 amended: `from_str` is F's path-and-query with any trailing `/`
stripped, except that an absent, empty or `/` path-and-query stays `/`;
`rem` is obtained by stripping the `from_str` prefix from `req_str`,
`is_root = (rem = "/")` is noted before a leading `/` is stripped from
`rem`, and when `rem` is then empty with `is_root` true and `to_str` not
ending in `/`, the output is `to_str` with `/` appended; consequently, for
every service with from path `/` and to path-and-query `/to`, a request
with path `/` rewrites to path-and-query `/to` (unchanged). -/
theorem merge_root_from_behaviour :
    (extract_from none = "/") ∧ (extract_from (some "") = "/") ∧
    (extract_from (some "/") = "/") ∧
    (∀ s : String, ¬ s = "" → ¬ s = "/" →
      extract_from (some s) = if strEndsWith s "/" then ⟨s.data.dropLast⟩ else s) ∧
    (∀ req_paq from_paq : Option String, ∀ to_str : String,
      stripOrStay (extract_req req_paq) (extract_from from_paq) = "/" →
      strEndsWith to_str "/" = false →
      mergePaq req_paq from_paq (some to_str) = to_str ++ "/") ∧
    (∀ sch auth sch₂ auth₂ : Option String,
      merge_path_and_query ⟨sch₂, auth₂, some "/"⟩ ⟨none, none, some "/"⟩
        ⟨sch, auth, some "/to"⟩ = ⟨sch, auth, some "/to"⟩) := by
  refine ⟨rfl, rfl, rfl, ?_, ?_, ?_⟩
  · intro s h₁ h₂
    simp [extract_from, h₁, h₂]
  · intro req_paq from_paq to_str hroot hts
    simp only [mergePaq]
    rw [hroot]
    have h₁ : stripOrStay "/" "/" = "" := rfl
    rw [h₁]
    simp [hts]
  · intro sch auth sch₂ auth₂
    simp only [merge_path_and_query]
    have h₁ : mergePaq (some "/") (some "/") (some "/to") = "/to" := rfl
    rw [h₁]

/-- C3 amended witness: the `rem`-empty, `is_root` branch evaluated on the
§8 edge inputs. -/
theorem merge_root_from_behaviour_witness :
    mergePaq (some "/sub/2/") (some "/sub/2") (some "/to") = "/to" ++ "/" :=
  merge_root_from_behaviour.2.2.2.2.1 (some "/sub/2/") (some "/sub/2") "/to"
    (by decide) (by decide)

/-- C4: an `add_service` call against a state already containing an
endpoint `E` equal to, a prefix of, or extended by the new service's
normalized from path fails with `ServiceError::AlreadyExists`, leaves the
state unchanged, and the management API surfaces the error as HTTP 409
with body `{"message":"Service '<name>' is already bound to
'<endpoint>'"}`. -/
theorem add_service_prefix_conflict (st : ProxyState) (c : CreateService) (E : String)
    (hmem : E ∈ keysA st.by_endpoint)
    (hconf : strStartsWith E (normalizeEndpoint c.from_) = true ∨
      strStartsWith (normalizeEndpoint c.from_) E = true) :
    st.add_service c = .error (.alreadyExists c.name (normalizeEndpoint c.from_)) ∧
    applyStateOp st (.add c) = st ∧
    apiResponse (ApiErrorKind.ofError (.service
        (.alreadyExists c.name (normalizeEndpoint c.from_)))) =
      (409, errorResponseBody ("Service '" ++ c.name ++ "' is already bound to '" ++
        normalizeEndpoint c.from_ ++ "'")) := by
  have herr : st.add_service c =
      .error (.alreadyExists c.name (normalizeEndpoint c.from_)) := by
    unfold ProxyState.add_service
    by_cases h₁ : containsA c.name st.by_name = true
    · simp [h₁]
    · have hany : (keysA st.by_endpoint).any
          (fun e => strStartsWith e (normalizeEndpoint c.from_) ||
            strStartsWith (normalizeEndpoint c.from_) e) = true :=
        List.any_eq_true.mpr ⟨E, hmem, by rcases hconf with h | h <;> simp [h]⟩
      simp [h₁, hany]
  refine ⟨herr, ?_, rfl⟩
  simp [applyStateOp, herr]

/-- C4 witness: the §8 prefix-conflict scenario (`a` bound to `/x`, adding
`b` with from `/x/y`) evaluated through the theorem. -/
theorem add_service_prefix_conflict_witness :
    ProxyState.add_service
        { by_endpoint := [("/x", ProxyService.new ⟨"a", "/x"⟩)], by_name := [("a", "/x")] }
        ⟨"b", "/x/y"⟩ = .error (.alreadyExists "b" "/x/y") ∧
    apiResponse (ApiErrorKind.ofError (.service (.alreadyExists "b" "/x/y"))) =
      (409, "\x7b\"message\":\"Service 'b' is already bound to '/x/y'\"\x7d") := by
  have h := add_service_prefix_conflict
    { by_endpoint := [("/x", ProxyService.new ⟨"a", "/x"⟩)], by_name := [("a", "/x")] }
    ⟨"b", "/x/y"⟩ "/x" (by decide) (Or.inr (by decide))
  exact ⟨h.1, by decide⟩

/-- C5: for every request whose path matches a registered service's
endpoint prefix, if the `Authorization` header is absent or malformed, or
the credential token is not in that service's credentials set,
`forward_req` responds 401 with header `WWW-Authenticate: Basic
realm="Service access"` and an empty body, and dispatches nothing to the
backend. -/
theorem unauthorized_request_response (req : RequestM) (st : HState) (stats : ProxyStats)
    (ip : String) (p : String × HService)
    (hfind : st.by_endpoint.find? (fun q => strStartsWith (pathOf req.uri.paq) q.1) = some p)
    (hauth : extract_basic_auth req.headers = .error () ∨
      ∃ t, extract_basic_auth req.headers = .ok t ∧ p.2.access.contains t = false) :
    forward_req req st stats ip =
      .respond { status := 401
                 wwwAuthenticate := some "Basic realm=\"Service access\""
                 body := "" } := by
  obtain ⟨ep, service⟩ := p
  simp only [forward_req]
  rw [hfind]
  rcases hauth with herr | ⟨t, ht, hcont⟩
  · rw [herr]
    rfl
  · rw [ht]
    dsimp only
    have hc : service.access.contains t = false := hcont
    rw [hc]
    rfl

/-- C5 witness: a service bound to `/test`, a request for `/test/x`
without an `Authorization` header. -/
theorem unauthorized_request_response_witness :
    forward_req ⟨⟨none, none, some "/test/x"⟩, ⟨none, none⟩⟩
      ⟨[("/test", ⟨⟨none, none, some "/test"⟩, ⟨some "http", some "127.0.0.1", some "/"⟩, []⟩)]⟩
      emptyStats "1.2.3.4" =
      .respond { status := 401
                 wwwAuthenticate := some "Basic realm=\"Service access\""
                 body := "" } :=
  unauthorized_request_response _ _ _ _
    ("/test", ⟨⟨none, none, some "/test"⟩, ⟨some "http", some "127.0.0.1", some "/"⟩, []⟩)
    (by decide) (Or.inl rfl)

/-- C6 counterexample: an I/O error routed through the handler error
conversion is answered with HTTP 400, not 500 as the claim states. -/
theorem io_error_maps_to_400 :
    apiStatus (ApiErrorKind.ofError (.io "disk failure")) = 400 ∧ (400 : Nat) ≠ 500 := by
  decide

/-- C6 amended: the blanket conversion maps the three `AlreadyExists`
error shapes to 409 and every other `error::Error` value — including I/O,
TLS, Management and proxy `Runtime` errors — to 400; only `hyper` server
and HTTP errors (which bypass `error::Error`) map to 500, `serde_json`
errors map to 400, and every error response body has the shape
`{"message": <text>}`. -/
theorem api_error_status_mapping :
    (∀ e, isAlreadyExistsError e = true → apiStatus (ApiErrorKind.ofError e) = 409) ∧
    (∀ e, isAlreadyExistsError e = false → apiStatus (ApiErrorKind.ofError e) = 400) ∧
    (∀ m, apiStatus (ApiErrorKind.ofHyperError m) = 500) ∧
    (∀ m, apiStatus (ApiErrorKind.ofHttpError m) = 500) ∧
    (∀ m, apiStatus (ApiErrorKind.ofJsonError m) = 400) ∧
    (∀ k, ∃ m, (apiResponse k).2 = "\x7b\"message\":" ++ jsonEncodeString m ++ "\x7d") := by
  refine ⟨?_, ?_, fun m => rfl, fun m => rfl, fun m => rfl, ?_⟩
  · intro e h
    rcases e with m | m | te | me | pe | se | ue | m
    · simp [isAlreadyExistsError] at h
    · simp [isAlreadyExistsError] at h
    · rcases te <;> simp [isAlreadyExistsError] at h
    · rcases me <;> simp [isAlreadyExistsError] at h
    · rcases pe with a | m | m
      · rfl
      · simp [isAlreadyExistsError] at h
      · simp [isAlreadyExistsError] at h
    · rcases se with ⟨n, ep⟩ | n
      · rfl
      · simp [isAlreadyExistsError] at h
    · rcases ue with n | n
      · rfl
      · simp [isAlreadyExistsError] at h
    · simp [isAlreadyExistsError] at h
  · intro e h
    rcases e with m | m | te | me | pe | se | ue | m
    · rfl
    · rfl
    · rcases te <;> rfl
    · rcases me <;> rfl
    · rcases pe with a | m | m
      · simp [isAlreadyExistsError] at h
      · rfl
      · rfl
    · rcases se with ⟨n, ep⟩ | n
      · simp [isAlreadyExistsError] at h
      · rfl
    · rcases ue with n | n
      · simp [isAlreadyExistsError] at h
      · rfl
    · rfl
  · intro k
    rcases k with e | e | m
    · exact ⟨displayError e, rfl⟩
    · exact ⟨displayError e, rfl⟩
    · exact ⟨m, rfl⟩

/-- C6 amended witness: the mapping evaluated on a concrete conflict and a
concrete runtime error. -/
theorem api_error_status_mapping_witness :
    apiStatus (ApiErrorKind.ofError (.service (.alreadyExists "b" "/x/y"))) = 409 ∧
    apiStatus (ApiErrorKind.ofError (.proxy (.runtime "boom"))) = 400 :=
  ⟨api_error_status_mapping.1 _ (by decide), api_error_status_mapping.2.1 _ (by decide)⟩

/-- C7 counterexample: after accounting one request for path `/x`, removing
the service and re-adding a service with from `/x` resets the endpoint
counter from 1 back to 0 — a service addition decreases a counter. -/
theorem counter_decrease_on_service_readd :
    cnt "/x" (runInstOps [.addSvc ⟨"s", "/x"⟩, .req "/x" "u", .rmSvc "s"]).stats.endpoint
      = 1 ∧
    cnt "/x" (runInstOps [.addSvc ⟨"s", "/x"⟩, .req "/x" "u", .rmSvc "s",
        .addSvc ⟨"s2", "/x"⟩]).stats.endpoint = 0 := by
  decide

/-- C7 amended: every `ProxyStats` counter is monotonically non-decreasing
under request accounting (`inc`), and removals (`Proxy::remove`,
`Proxy::remove_user`) never modify the stats; however `Proxy::add` resets
the added service's endpoint counter to 0 and `Proxy::add_user` resets
that user's counters to 0, which may decrease previously accumulated
values. -/
theorem stats_inc_monotone_and_removal_frame :
    (∀ s e u, s.total ≤ (ProxyStats.inc s e u).total) ∧
    (∀ s e u k, cnt k s.endpoint ≤ cnt k (ProxyStats.inc s e u).endpoint) ∧
    (∀ s e u k, cnt k s.user ≤ cnt k (ProxyStats.inc s e u).user) ∧
    (∀ s e u k₁ k₂, cnt k₂ ((lookupA k₁ s.user_endpoint).getD []) ≤
      cnt k₂ ((lookupA k₁ (ProxyStats.inc s e u).user_endpoint).getD [])) ∧
    (∀ i n, (applyInstOp i (.rmSvc n)).stats = i.stats) ∧
    (∀ i sn un, (applyInstOp i (.rmUsr sn un)).stats = i.stats) ∧
    (∀ i c, ∀ k, k ≠ (if strTrim c.from_ = "" then "/" else c.from_) →
      cnt k (applyInstOp i (.addSvc c)).stats.endpoint = cnt k i.stats.endpoint) := by
  refine ⟨fun s e u => Nat.le_succ _, fun s e u k => cnt_bumpA_mono k e s.endpoint,
    fun s e u k => cnt_bumpA_mono k u s.user, ?_, ?_, ?_, ?_⟩
  · intro s e u k₁ k₂
    simp only [ProxyStats.inc, lookupA_bumpUE]
    by_cases h : k₁ = u
    · subst h
      rw [if_pos rfl]
      exact cnt_bumpA_mono k₂ e _
    · rw [if_neg h]
  · exact rmSvc_stats_frame
  · exact rmUsr_stats_frame
  · intro i c k hk
    simp only [applyInstOp, Instance.add]
    cases h : ProxyState.add_service i.state
        (if strTrim c.from_ = "" then { c with from_ := "/" } else c) with
    | error e => simp [h]
    | ok p =>
      obtain ⟨svc, st₂⟩ := p
      have hfrom : svc.created_with.from_ =
          (if strTrim c.from_ = "" then "/" else c.from_) := by
        have := add_service_ok h
        have hsvc : svc = ProxyService.new
            (if strTrim c.from_ = "" then { c with from_ := "/" } else c) := by
          unfold ProxyState.add_service at h
          by_cases h₁ : containsA (if strTrim c.from_ = "" then { c with from_ := "/" }
              else c).name i.state.by_name = true
          · simp [h₁] at h
          · by_cases h₂ : (keysA i.state.by_endpoint).any
                (fun e => strStartsWith e (normalizeEndpoint
                    (if strTrim c.from_ = "" then { c with from_ := "/" } else c).from_) ||
                  strStartsWith (normalizeEndpoint
                    (if strTrim c.from_ = "" then { c with from_ := "/" } else c).from_) e)
                = true
            · simp [h₁, h₂] at h
            · simp [h₁, h₂] at h
              exact h.1.symm
        rw [hsvc]
        by_cases hcf : strTrim c.from_ = "" <;> simp [ProxyService.new, hcf]
      simp only [h, ProxyStats.reset_endpoint]
      rw [hfrom]
      unfold cnt
      rw [lookupA_insertA, if_neg hk]

/-- C7 amended witness: the monotone-`inc` part evaluated at a concrete
counter, and a removal on a concrete instance. -/
theorem stats_inc_monotone_and_removal_frame_witness :
    cnt "/x" ({ emptyStats with endpoint := [("/x", 2)] } : ProxyStats).endpoint ≤
      cnt "/x" (ProxyStats.inc { emptyStats with endpoint := [("/x", 2)] } "/x" "u").endpoint ∧
    cnt "/y" (applyInstOp ⟨emptyState, { emptyStats with endpoint := [("/y", 5)] }⟩
        (.addSvc ⟨"s", "/x"⟩)).stats.endpoint = 5 := by
  constructor
  · exact stats_inc_monotone_and_removal_frame.2.1 _ "/x" "u" "/x"
  · have h := stats_inc_monotone_and_removal_frame.2.2.2.2.2.2
      ⟨emptyState, { emptyStats with endpoint := [("/y", 5)] }⟩ ⟨"s", "/x"⟩ "/y" (by decide)
    rw [h]
    decide

/-- C8 counterexample: through the client SDK, a 404 response carrying the
error JSON body is not surfaced as `SendRequestError`; its body is simply
parsed as the expected success type and the parse failure surfaces as a
JSON error. -/
theorem non2xx_not_send_request_error :
    webRequestDecode decodeUnit (some ())
        ⟨404, none, "\x7b\"message\":\"Service 'x' not found\"\x7d"⟩ =
      .error (.jsonError "\x7b\"message\":\"Service 'x' not found\"\x7d") ∧
    isSendRequestError (webRequestDecode decodeUnit (some ())
        ⟨404, none, "\x7b\"message\":\"Service 'x' not found\"\x7d"⟩) = false :=
  ⟨rfl, rfl⟩

/-- C8 amended: the SDK inspects a received response's status only for the
204 check: a 204 or `Content-Length: 0` response decodes as the unit JSON
value and any other response — 2xx or not — has its body parsed as the
expected success type, a parse failure surfacing as a JSON error;
`SendRequestError` arises only when sending the request itself fails, and
then always carries code 500 and the transport error text. -/
theorem web_request_status_blind {α : Type} (decode : String → Option α)
    (uN : Option α) (s₁ s₂ : Nat) (cl : Option String) (body : String)
    (h₁ : ¬ s₁ = 204) (h₂ : ¬ s₂ = 204) :
    webRequestDecode decode uN ⟨s₁, cl, body⟩ = webRequestDecode decode uN ⟨s₂, cl, body⟩ ∧
    (∀ m meth url, fromRequest m meth url = .sendRequestError 500 m meth url) := by
  constructor
  · by_cases hcl : cl = some "0" <;> simp [webRequestDecode, h₁, h₂, hcl]
  · intro m meth url
    rfl

/-- C8 amended witness: a 404 and a 409 response with the same body decode
identically. -/
theorem web_request_status_blind_witness :
    webRequestDecode decodeUnit (some ()) ⟨404, none, "null"⟩ =
      webRequestDecode decodeUnit (some ()) ⟨409, none, "null"⟩ :=
  (web_request_status_blind decodeUnit (some ()) 404 409 none "null"
    (by decide) (by decide)).1

/-- C9: for every `ProxyStats` value reachable from the zeroed stats by
`reset_endpoint`, `reset_user` and `inc` operations, the `user` and
`user_endpoint` maps have the same key set, and each user's counter equals
the sum of that user's per-endpoint counters. -/
theorem stats_user_linkage (ops : List StatsOp) :
    (∀ u, containsA u (runStatsOps ops).user =
      containsA u (runStatsOps ops).user_endpoint) ∧
    (∀ u m, lookupA u (runStatsOps ops).user_endpoint = some m →
      lookupA u (runStatsOps ops).user = some (sumVals m)) := by
  exact statsInv_fold ops emptyStats statsInv_empty

/-- C9 witness: a concrete history evaluated through the linkage theorem. -/
theorem stats_user_linkage_witness :
    lookupA "u" (runStatsOps [.resetUser "u", .inc "/e" "u"]).user =
      some (sumVals [("/e", 1)]) := by
  have h := stats_user_linkage [.resetUser "u", .inc "/e" "u"]
  exact h.2 "u" [("/e", 1)] (by decide)

/-- C10: `Proxy::remove` and `Proxy::remove_user` leave the instance's
`ProxyStats` completely unchanged, so `get_user_stats` answers identically
before and after a user's deletion; in particular a user with an
accumulated count still reads that count (rather than not-found) after
being deleted. -/
theorem removal_leaves_stats_unchanged :
    (∀ i n, (applyInstOp i (.rmSvc n)).stats = i.stats) ∧
    (∀ i sn un, (applyInstOp i (.rmUsr sn un)).stats = i.stats) ∧
    (∀ i sn un u, get_user_stats (applyInstOp i (.rmUsr sn un)).stats u =
      get_user_stats i.stats u) ∧
    (∀ i sn un k, lookupA un i.stats.user = some k →
      get_user_stats (applyInstOp i (.rmUsr sn un)).stats un = .ok k) := by
  refine ⟨rmSvc_stats_frame, rmUsr_stats_frame, ?_, ?_⟩
  · intro i sn un u
    rw [rmUsr_stats_frame i sn un]
  · intro i sn un k hl
    rw [rmUsr_stats_frame i sn un]
    unfold get_user_stats
    rw [hl]

/-- C10 witness: deleting user `u` from a concrete instance still reads the
accumulated count 3. -/
theorem removal_leaves_stats_unchanged_witness :
    get_user_stats (applyInstOp
        ⟨emptyState, { emptyStats with user := [("u", 3)] }⟩ (.rmUsr "s" "u")).stats "u" =
      .ok 3 :=
  removal_leaves_stats_unchanged.2.2.2
    ⟨emptyState, { emptyStats with user := [("u", 3)] }⟩ "s" "u" 3 (by decide)

end YaHttpProxy
